import Mathlib

/-!
Verification of the swarm-provisioning subsystem (crates/created-swarm/src/swarm.rs)
and the chain-connector difficulty function
(crates/chain-connector/src/function/difficulty.rs).

The Rust source is shallowly embedded: external collaborators (peer-id
derivation, trust-graph certificate ingestion, builtins deployment, the
connection pool) are abstracted as fields of an environment record, and the
asynchronous barrier loop is embedded as a fuel-bounded function that also
returns the trace of operations it performed on the connection pool, so that
ordering properties (subscribe before first read; level-triggered re-reads)
become statements about that trace.
-/

/-- Opaque identity material; modelled as natural numbers. -/
abbrev Keypair := Nat

/-- Peer identifier, derived from a keypair by an external collaborator. -/
abbrev PeerId := Nat

/-- Public key appearing in trust root weights. -/
abbrev PubKey := Nat

/-- Trust certificate; its internal structure is irrelevant to this core. -/
abbrev Cert := Nat

/-- One libp2p multiaddress protocol segment.  The Rust code only inspects
whether the first segment is `Protocol::Memory(_)`; the remaining
constructors stand for every other protocol. -/
inductive Protocol where
  | memory (port : Nat)
  | tcp (port : Nat)
  | ip4 (host : Nat)
  | p2p (peer : Nat)
deriving DecidableEq

/-- A multiaddress is a sequence of protocol segments; `listen_on.iter().next()`
in the Rust code corresponds to `List.head?`. -/
abbrev Multiaddr := List Protocol

/-- Transport kind (`fluence_libp2p::Transport`). -/
inductive Transport where
  | memory
  | network
deriving DecidableEq

/-- Trust material: weighted root keys, ordered certificates, reference time
(`struct Trust` in swarm.rs). -/
structure Trust where
  root_weights : List (PubKey × Nat)
  certificates : List Cert
  cur_time : Nat
deriving DecidableEq

/-- `struct SwarmConfig` in swarm.rs. -/
structure SwarmConfig where
  keypair : Keypair
  bootstraps : List Multiaddr
  listen_on : Multiaddr
  trust : Option Trust
  transport : Transport
  tmp_dir : Option String
  pool_size : Option Nat
  builtins_dir : Option String
deriving DecidableEq

/-- `SwarmConfig::new`: transport is auto-detected from the first protocol
segment of the listen address (`Protocol::Memory(_)` means the in-memory
transport); everything optional defaults to `none`.  The Rust code draws a
random ed25519 keypair; the draw is modelled as the `keypair` argument. -/
def SwarmConfig.new (keypair : Keypair) (bootstraps : List Multiaddr)
    (listen_on : Multiaddr) : SwarmConfig :=
  { keypair := keypair
    bootstraps := bootstraps
    listen_on := listen_on
    trust := none
    transport :=
      match listen_on.head? with
      | some (Protocol.memory _) => Transport.memory
      | _ => Transport.network
    tmp_dir := none
    pool_size := none
    builtins_dir := none }

/-- `SwarmConfig::with_trust`. -/
def SwarmConfig.with_trust (keypair : Keypair) (bootstraps : List Multiaddr)
    (listen_on : Multiaddr) (trust : Trust) : SwarmConfig :=
  { SwarmConfig.new keypair bootstraps listen_on with trust := some trust }

/-- Trust graph: weighted roots plus the certificates ingested so far
(`TrustGraph::new(InMemoryStorage::new_in_memory(root_weights))`). -/
structure TrustGraph where
  root_weights : List (PubKey × Nat)
  certs : List (Cert × Nat)
deriving DecidableEq

/-- The freshly seeded trust graph of `create_swarm_with_runtime`: root
weights are taken from the configured trust material when present, `&[]`
otherwise. -/
def initialTrustGraph (trust : Option Trust) : TrustGraph :=
  { root_weights := (trust.map Trust.root_weights).getD [], certs := [] }

/-- `VmPoolConfig` as constructed by `VmPoolConfig::new(pool_size, EXECUTION_TIMEOUT)`. -/
structure VmPoolConfig where
  pool_size : Nat
  execution_timeout : Nat
deriving DecidableEq

/-- `VmPoolConfig::new`. -/
def VmPoolConfig.new (pool_size : Nat) (execution_timeout : Nat) : VmPoolConfig :=
  { pool_size := pool_size, execution_timeout := execution_timeout }

/-- One operation performed on a connection pool by the per-node barrier wait
of `make_swarms_with`: subscribing to lifecycle events
(`pool.lifecycle_events()`), reading the authoritative connection count
(`pool.count_connections().await`, recording the value read), or suspending
on the next lifecycle event (`events.next().await`). -/
inductive PoolAction where
  | subscribe
  | readCount (v : Nat)
  | awaitEvent
deriving DecidableEq

/-- The `loop` of the per-node barrier wait, fuel-bounded.  `counts k` is the
authoritative connection count the pool reports at the k-th read (wake), and
`start` is the index of the next read.  Returns the trace of pool operations
together with `true` when the loop exited (`num >= bootstraps_num`) and
`false` when fuel ran out while still waiting. -/
def waitLoop (counts : Nat → Nat) (expected : Nat) :
    Nat → Nat → List PoolAction × Bool
  | 0, _ => ([], false)
  | fuel + 1, k =>
      let v := counts k
      if expected ≤ v then ([PoolAction.readCount v], true)
      else
        let r := waitLoop counts expected fuel (k + 1)
        (PoolAction.readCount v :: PoolAction.awaitEvent :: r.1, r.2)

/-- The whole per-node barrier wait of `make_swarms_with`: subscribe to the
lifecycle event stream first (`let mut events = pool.lifecycle_events()`),
then run the read/await loop. -/
def nodeWait (counts : Nat → Nat) (expected fuel : Nat) : List PoolAction × Bool :=
  let r := waitLoop counts expected fuel 0
  (PoolAction.subscribe :: r.1, r.2)

/-- The trace the loop produces when the first count reaching the threshold
is read at wake `start + k`: a read at each wake, an event await between
consecutive reads, ending on the resolving read. -/
def levelTrace (counts : Nat → Nat) : Nat → Nat → List PoolAction
  | start, 0 => [PoolAction.readCount (counts start)]
  | start, k + 1 =>
      PoolAction.readCount (counts start) :: PoolAction.awaitEvent ::
        levelTrace counts (start + 1) k

/-- An everywhere-zero connection-count oracle, used for concrete checks. -/
def zeroCounts : Nat → Nat := fun _ => 0

/-- Environment of external collaborators used by node construction and
swarm orchestration.  Random draws (management keypair, startup management
peer id, per-call keypairs, memory-address ports) are modelled as oracle
fields; fallible collaborators return `Except`, a Rust panic being an
`error`. -/
structure SwarmEnv where
  /-- `config_utils::to_peer_id`. -/
  toPeerId : Keypair → PeerId
  /-- `fs_utils::make_tmp_dir_peer_id`. -/
  makeTmpDir : String → String
  /-- The ed25519 management keypair drawn in `create_swarm_with_runtime`. -/
  genManagementKp : Keypair
  /-- `RandomPeerId::random()`, the startup management peer id. -/
  startupManagementPeerId : PeerId
  /-- `trust_graph.add(cert, cur_time)`: external certificate ingestion. -/
  addCert : TrustGraph → Cert → Nat → Except String TrustGraph
  /-- `test_constants::EXECUTION_TIMEOUT` (value external to this core). -/
  execution_timeout : Nat
  /-- `test_constants::PARTICLE_TTL`, the builtins deployment timeout. -/
  particle_ttl : Nat
  /-- `BuiltinsDeployer::deploy_builtin_services`, keyed by
  (startup management peer id, local peer id, builtins dir, ttl, strict). -/
  deployBuiltins : PeerId → PeerId → String → Nat → Bool → Except String Unit
  /-- Connection-count oracle: node index, wake number, count reported. -/
  counts : Nat → Nat → Nat
  /-- Fuel bound for observing the barrier loops. -/
  fuel : Nat
  /-- The random keypair drawn by `SwarmConfig::new` at each call of the
  node-creation closure of `make_swarms_with_cfg`. -/
  keypairSource : List Multiaddr → Multiaddr → Keypair
  /-- The random port drawn by `create_memory_maddr` at its i-th call. -/
  memMaddrVal : Nat → Nat

/-- The result of constructing one node, bundling what the Rust call
returns (`(PeerId, Box<Node<RT>>, Keypair, SwarmConfig)`) together with the
node fields later consumed by `make_swarms_with`. -/
structure CreatedNodeParts where
  peer_id : PeerId
  management_kp : Keypair
  startup_management_peer_id : PeerId
  local_peer_id : PeerId
  trust_graph : TrustGraph
  pool_config : VmPoolConfig
  config : SwarmConfig
deriving DecidableEq

/-- `struct CreatedSwarm` (the `outlet` and `connectivity` handles carry no
data relevant to the claims and are omitted). -/
structure CreatedSwarm where
  peer_id : PeerId
  multiaddr : Multiaddr
  tmp_dir : String
  management_keypair : Keypair
deriving DecidableEq

/-- Ordered replay of certificates into the trust graph
(`for cert in trust.certificates { trust_graph.add(cert, trust.cur_time) }`),
also returning the trace of `add` calls as (certificate, reference time)
pairs.  The first rejection aborts the replay. -/
def replayCerts (add : TrustGraph → Cert → Nat → Except String TrustGraph)
    (g : TrustGraph) (certs : List Cert) (t : Nat) :
    Except String TrustGraph × List (Cert × Nat) :=
  match certs with
  | [] => (Except.ok g, [])
  | c :: cs =>
      match add g c t with
      | Except.error e => (Except.error e, [(c, t)])
      | Except.ok g2 =>
          let r := replayCerts add g2 cs t
          (r.1, (c, t) :: r.2)

/-- Trust seeding and replay as performed by `create_swarm_with_runtime`:
nothing is ingested when no trust material is configured. -/
def trustReplay (env : SwarmEnv) (trust : Option Trust) :
    Except String TrustGraph × List (Cert × Nat) :=
  match trust with
  | none => (Except.ok (initialTrustGraph none), [])
  | some t => replayCerts env.addCert (initialTrustGraph (some t)) t.certificates t.cur_time

/-- The working-directory assignment of `create_swarm_with_runtime`: a
directory derived from the peer id is assigned only when none was supplied. -/
def resolveTmpDir (env : SwarmEnv) (config : SwarmConfig) : SwarmConfig :=
  if config.tmp_dir.isNone then
    { config with tmp_dir := some (env.makeTmpDir (toString (env.toPeerId config.keypair))) }
  else config

/-- `create_swarm_with_runtime`: derive the peer id, assign a working
directory if none was supplied, draw a management keypair, seed the trust
graph and replay the configured certificates (any rejection aborts the
whole construction), size the VM pool from `pool_size` (default 1), and
return the node parts alongside the (frozen) config.  The second component
is the ghost trace of certificate-ingestion calls. -/
def create_swarm_with_runtime (env : SwarmEnv) (config0 : SwarmConfig) :
    Except String CreatedNodeParts × List (Cert × Nat) :=
  let peer_id := env.toPeerId config0.keypair
  let config := resolveTmpDir env config0
  let r := trustReplay env config.trust
  match r.1 with
  | Except.error e => (Except.error e, r.2)
  | Except.ok g =>
      (Except.ok
        { peer_id := peer_id
          management_kp := env.genManagementKp
          startup_management_peer_id := env.startupManagementPeerId
          local_peer_id := peer_id
          trust_graph := g
          pool_config := VmPoolConfig.new (config.pool_size.getD 1) env.execution_timeout
          config := config }, r.2)

/-- `create_swarm`: `create_swarm_with_runtime` specialised to the AVM
runtime (the runtime-configuration closure plays no role in the model). -/
def create_swarm (env : SwarmEnv) (config : SwarmConfig) :
    Except String CreatedNodeParts × List (Cert × Nat) :=
  create_swarm_with_runtime env config

/-- The bootstrap list handed to node i in `make_swarms_with`: all allocated
addresses except its own, then the caller-supplied bootstraps filter. -/
def nodeBootstraps (bootstraps : List Multiaddr → List Multiaddr)
    (addrs : List Multiaddr) (addr : Multiaddr) : List Multiaddr :=
  bootstraps (addrs.filter (fun a => a ≠ addr))

/-- Sequential effectful map over `Except`, modelling an iterator whose
closure may panic: the first failure aborts the whole traversal. -/
def mapExcept (f : α → Except ε β) : List α → Except ε (List β)
  | [] => Except.ok []
  | a :: as =>
      match f a with
      | Except.error e => Except.error e
      | Except.ok b =>
          match mapExcept f as with
          | Except.error e => Except.error e
          | Except.ok bs => Except.ok (b :: bs)

/-- Node construction for one address inside `make_swarms_with`: compute the
bootstrap list, remember its length (`bootstraps_num`, the expected
connection count), and call the node-creation closure. -/
def buildNode (create_node : List Multiaddr → Multiaddr → Except String CreatedNodeParts)
    (bootstraps : List Multiaddr → List Multiaddr)
    (addrs : List Multiaddr) (addr : Multiaddr) :
    Except String (CreatedNodeParts × Nat) :=
  Except.map (fun p => (p, (nodeBootstraps bootstraps addrs addr).length))
    (create_node (nodeBootstraps bootstraps addrs addr) addr)

/-- Observable event of the start-and-deploy phase of `make_swarms_with`:
a node is started (`node.start()`), or builtin-service deployment is
invoked for it. -/
inductive SwarmEvent where
  | startNode (p : PeerId)
  | deployCall (p : PeerId)
deriving DecidableEq

/-- Assembly of the `CreatedSwarm` record for one node
(`config.tmp_dir.unwrap()` panics when no directory is set). -/
def mkCreatedSwarm (parts : CreatedNodeParts) : Except String CreatedSwarm :=
  match parts.config.tmp_dir with
  | some d =>
      Except.ok
        { peer_id := parts.peer_id
          multiaddr := parts.config.listen_on
          tmp_dir := d
          management_keypair := parts.management_kp }
  | none => Except.error "tmp_dir not set"

/-- Per-node start-and-deploy phase of `make_swarms_with`: start the node,
then, when a builtins directory is configured, synchronously deploy builtin
services (`deploy_builtin_services().expect(..)`: a failure is fatal).
Returns the outcome and the trace of start/deploy events. -/
def startAndDeploy (env : SwarmEnv) (parts : CreatedNodeParts) :
    Except String CreatedSwarm × List SwarmEvent :=
  match parts.config.builtins_dir with
  | none => (mkCreatedSwarm parts, [SwarmEvent.startNode parts.local_peer_id])
  | some dir =>
      match env.deployBuiltins parts.startup_management_peer_id parts.local_peer_id
          dir env.particle_ttl false with
      | Except.error e =>
          (Except.error e,
            [SwarmEvent.startNode parts.local_peer_id, SwarmEvent.deployCall parts.local_peer_id])
      | Except.ok _ =>
          (mkCreatedSwarm parts,
            [SwarmEvent.startNode parts.local_peer_id, SwarmEvent.deployCall parts.local_peer_id])

/-- Start-and-deploy over the whole node list, sequentially; a failure stops
the traversal, keeps the events already emitted, and yields no swarm list. -/
def runNodes (env : SwarmEnv) :
    List (CreatedNodeParts × Nat) → Except String (List CreatedSwarm) × List SwarmEvent
  | [] => (Except.ok [], [])
  | p :: rest =>
      let r := startAndDeploy env p.1
      match r.1 with
      | Except.error e => (Except.error e, r.2)
      | Except.ok cs =>
          let rr := runNodes env rest
          (match rr.1 with
           | Except.error e => Except.error e
           | Except.ok css => Except.ok (cs :: css), r.2 ++ rr.2)

/-- Outcome of one `make_swarms_with` call: the returned handles (or the
aborting error), the start/deploy event trace, and the traces of the
per-node barrier waits that were run. -/
structure SwarmRun where
  result : Except String (List CreatedSwarm)
  events : List SwarmEvent
  waits : List (List PoolAction × Bool)

/-- `make_swarms_with`: allocate n addresses, construct every node with its
bootstrap list, start all nodes and deploy builtins, and, when
`wait_connected` is set and nothing aborted earlier, run the convergence
barrier (one level-triggered wait per node, with that node bootstrap-list
length as expected count). -/
def make_swarms_with (env : SwarmEnv) (n : Nat)
    (create_node : List Multiaddr → Multiaddr → Except String CreatedNodeParts)
    (create_maddr : Nat → Multiaddr)
    (bootstraps : List Multiaddr → List Multiaddr)
    (wait_connected : Bool) : SwarmRun :=
  let addrs := (List.range n).map create_maddr
  match mapExcept (buildNode create_node bootstraps addrs) addrs with
  | Except.error e => { result := Except.error e, events := [], waits := [] }
  | Except.ok nodes =>
      let r := runNodes env nodes
      { result := r.1
        events := r.2
        waits :=
          if wait_connected then
            match r.1 with
            | Except.ok _ =>
                nodes.enum.map (fun p => nodeWait (env.counts p.1) p.2.2 env.fuel)
            | Except.error _ => []
          else [] }

/-- `create_memory_maddr`: a one-segment `/memory` multiaddress with a
random port (the draw at the i-th call is the oracle `env.memMaddrVal i`). -/
def createMemoryMaddr (env : SwarmEnv) (i : Nat) : Multiaddr :=
  [Protocol.memory (env.memMaddrVal i)]

/-- `make_swarms_with_cfg`: full-mesh bootstraps (identity filter), memory
addresses, node creation through `create_swarm` on a fresh `SwarmConfig`
transformed by `update_cfg`, waiting for convergence. -/
def make_swarms_with_cfg (env : SwarmEnv) (n : Nat)
    (update_cfg : SwarmConfig → SwarmConfig) : SwarmRun :=
  make_swarms_with env n
    (fun bs maddr =>
      (create_swarm env (update_cfg (SwarmConfig.new (env.keypairSource bs maddr) bs maddr))).1)
    (createMemoryMaddr env)
    id
    true

/-- `make_swarms`: `make_swarms_with_cfg` with the identity transform. -/
def make_swarms (env : SwarmEnv) (n : Nat) : SwarmRun :=
  make_swarms_with_cfg env n id

namespace ethabi

/-- `ethabi::ParamType`, restricted to the constructors this repository
touches plus representatives of the rest. -/
inductive ParamType where
  | address
  | uint (bits : Nat)
  | fixedBytes (len : Nat)
  | bytes
  | boolean
deriving DecidableEq

/-- `ethabi::StateMutability`. -/
inductive StateMutability where
  | pure
  | nonpayable
  | view
  | payable
deriving DecidableEq

/-- `ethabi::Function` (parameter entries reduced to their types). -/
structure Function where
  name : String
  inputs : List ParamType
  outputs : List ParamType
  constant : Option Bool
  state_mutability : StateMutability
deriving DecidableEq

end ethabi

namespace DifficultyFunction

/-- `DifficultyFunction::function()` from
crates/chain-connector/src/function/difficulty.rs. -/
def function : ethabi.Function :=
  { name := "difficulty"
    inputs := []
    outputs := []
    constant := none
    state_mutability := ethabi.StateMutability.view }

/-- `DifficultyFunction::signature()`. -/
def signature : List ethabi.ParamType :=
  [ethabi.ParamType.fixedBytes 32]

end DifficultyFunction

/-- A concrete collaborator environment on which every step succeeds. -/
def envW : SwarmEnv :=
  { toPeerId := id
    makeTmpDir := fun _ => "tmp"
    genManagementKp := 7
    startupManagementPeerId := 9
    addCert := fun g c t => Except.ok { g with certs := g.certs ++ [(c, t)] }
    execution_timeout := 3
    particle_ttl := 5
    deployBuiltins := fun _ _ _ _ _ => Except.ok ()
    counts := fun _ _ => 0
    fuel := 1
    keypairSource := fun _ _ => 1
    memMaddrVal := fun i => i }

/-- Concrete trust material with three certificates. -/
def trustW : Trust :=
  { root_weights := [(1, 1)], certificates := [1, 2, 3], cur_time := 11 }

/-- Environment whose trust collaborator rejects certificate 2. -/
def envFail : SwarmEnv :=
  { envW with
      addCert := fun g c t =>
        if c = 2 then Except.error "bad cert"
        else Except.ok { g with certs := g.certs ++ [(c, t)] } }

/-- Environment whose builtins-deploy collaborator always fails. -/
def envDeployFail : SwarmEnv :=
  { envW with deployBuiltins := fun _ _ _ _ _ => Except.error "deploy failed" }

/-- A concrete configuration with no working directory supplied. -/
def cfgW : SwarmConfig := SwarmConfig.new 4 [] [Protocol.memory 0]

/-- A concrete configuration carrying the trust material `trustW`. -/
def cfgTrustW : SwarmConfig :=
  SwarmConfig.with_trust 4 [] [Protocol.memory 0] trustW

/-- The node parts `create_swarm_with_runtime envW cfgW` produces. -/
def partsW : CreatedNodeParts :=
  { peer_id := 4
    management_kp := 7
    startup_management_peer_id := 9
    local_peer_id := 4
    trust_graph := { root_weights := [], certs := [] }
    pool_config := { pool_size := 1, execution_timeout := 3 }
    config := { cfgW with tmp_dir := some "tmp" } }

/-- Concrete node parts whose configuration has a builtins directory. -/
def partsB : CreatedNodeParts :=
  { peer_id := 4
    management_kp := 7
    startup_management_peer_id := 9
    local_peer_id := 4
    trust_graph := { root_weights := [], certs := [] }
    pool_config := { pool_size := 1, execution_timeout := 3 }
    config :=
      { keypair := 4
        bootstraps := []
        listen_on := [Protocol.memory 0]
        trust := none
        transport := Transport.memory
        tmp_dir := some "t"
        pool_size := none
        builtins_dir := some "bdir" } }

/-- Two distinct concrete memory addresses. -/
def addrsW : List Multiaddr := [[Protocol.memory 0], [Protocol.memory 1]]

/-- Connection-count oracle equal to the wake index. -/
def idCounts : Nat → Nat := fun j => j

/-- When the first count reaching the threshold is read at wake `start + k`,
the loop performs exactly one authoritative read per wake, one event await
between consecutive reads, and exits on the resolving read. -/
theorem waitLoop_resolves (counts : Nat → Nat) (expected : Nat) :
    ∀ (k start fuel : Nat), (∀ j, j < k → counts (start + j) < expected) →
      expected ≤ counts (start + k) → k < fuel →
      waitLoop counts expected fuel start = (levelTrace counts start k, true) := by
  intro k
  induction k with
  | zero =>
      intro start fuel _ hk hfuel
      obtain ⟨f, rfl⟩ : ∃ f, fuel = f + 1 := ⟨fuel - 1, by omega⟩
      rw [Nat.add_zero] at hk
      simp [waitLoop, levelTrace, hk]
  | succ k ih =>
      intro start fuel hj hk hfuel
      obtain ⟨f, rfl⟩ : ∃ f, fuel = f + 1 := ⟨fuel - 1, by omega⟩
      have h0 : counts start < expected := by
        have := hj 0 (Nat.succ_pos k)
        rwa [Nat.add_zero] at this
      have hnot : ¬ expected ≤ counts start := Nat.not_le.mpr h0
      have hrec := ih (start + 1) f
        (by
          intro j hjk
          have e : start + 1 + j = start + (j + 1) := by omega
          rw [e]
          exact hj (j + 1) (Nat.succ_lt_succ hjk))
        (by
          have e : start + 1 + k = start + (k + 1) := by omega
          rw [e]
          exact hk)
        (by omega)
      simp [waitLoop, hnot, hrec, levelTrace]

/-- When the count never reaches the threshold, the loop never exits. -/
theorem waitLoop_stuck (counts : Nat → Nat) (expected : Nat)
    (h : ∀ j, counts j < expected) :
    ∀ (fuel start : Nat), (waitLoop counts expected fuel start).2 = false := by
  intro fuel
  induction fuel with
  | zero => intro start; rfl
  | succ f ih =>
      intro start
      have hnot : ¬ expected ≤ counts start := Nat.not_le.mpr (h start)
      simp [waitLoop, hnot, ih]

/-- C1: in the convergence barrier of make_swarms_with, the per-node wait
subscribes to the connection-lifecycle event stream before its first read of
the connection count, re-reads the authoritative count on every wake, and
resolves exactly when that count first reaches the expected bootstrap count
(level-triggered); symmetrically, while the count stays below the expected
count it never resolves. -/
theorem barrier_level_triggered :
    (∀ (counts : Nat → Nat) (expected k fuel : Nat),
        (∀ j, j < k → counts j < expected) → expected ≤ counts k → k < fuel →
        nodeWait counts expected fuel =
          (PoolAction.subscribe :: levelTrace counts 0 k, true) ∧
        (nodeWait counts expected fuel).1.head? = some PoolAction.subscribe) ∧
    (∀ (counts : Nat → Nat) (expected fuel : Nat),
        (∀ j, counts j < expected) → (nodeWait counts expected fuel).2 = false) := by
  constructor
  · intro counts expected k fuel hj hk hfuel
    have h := waitLoop_resolves counts expected k 0 fuel
      (by intro j hjk; rw [Nat.zero_add]; exact hj j hjk)
      (by rwa [Nat.zero_add]) hfuel
    exact ⟨by simp [nodeWait, h], by simp [nodeWait]⟩
  · intro counts expected fuel h
    simp [nodeWait, waitLoop_stuck counts expected h fuel 0]

/-- C1 witness: a node expecting 2 connections whose count is the wake index
resolves on the third read; a node whose count never moves never resolves. -/
theorem barrier_level_triggered_witness :
    nodeWait idCounts 2 3 = (PoolAction.subscribe :: levelTrace idCounts 0 2, true) ∧
    (nodeWait zeroCounts 1 2).2 = false := by
  refine ⟨(barrier_level_triggered.1 idCounts 2 2 3 ?_ ?_ ?_).1,
    barrier_level_triggered.2 zeroCounts 1 2 ?_⟩
  · intro j hj
    exact hj
  · exact Nat.le_refl 2
  · omega
  · intro j
    exact Nat.one_pos

/-- C2 counterexample: with expected count 0 the wait still subscribes to
the lifecycle event stream (one subscription, not zero): the subscription
at swarm.rs line 171 is unconditional. -/
theorem zero_expected_subscribes_cex :
    ¬ (nodeWait zeroCounts 0 1).1.count PoolAction.subscribe = 0 := by
  decide

/-- C2 amended: with expected count 0 the per-node wait resolves immediately
on its first connection-count read, never awaiting a lifecycle event, but it
does subscribe to the lifecycle event stream exactly once before that read. -/
theorem zero_expected_immediate (counts : Nat → Nat) (fuel : Nat) :
    nodeWait counts 0 (fuel + 1) =
      ([PoolAction.subscribe, PoolAction.readCount (counts 0)], true) ∧
    (nodeWait counts 0 (fuel + 1)).1.count PoolAction.subscribe = 1 ∧
    PoolAction.awaitEvent ∉ (nodeWait counts 0 (fuel + 1)).1 := by
  have h : nodeWait counts 0 (fuel + 1) =
      ([PoolAction.subscribe, PoolAction.readCount (counts 0)], true) := by
    simp [nodeWait, waitLoop]
  refine ⟨h, ?_, ?_⟩ <;> simp [h]

/-- Removing every occurrence of a member from a duplicate-free list shortens
it by exactly one. -/
theorem filter_ne_length {α : Type} [DecidableEq α] :
    ∀ (l : List α) (a : α), l.Nodup → a ∈ l →
      (l.filter (fun b => b ≠ a)).length = l.length - 1 := by
  intro l
  induction l with
  | nil => intro a _ ha; cases ha
  | cons x xs ih =>
      intro a hnd ha
      by_cases hx : x = a
      · subst hx
        have hnot : x ∉ xs := (List.nodup_cons.mp hnd).1
        have hself : xs.filter (fun b => b ≠ x) = xs := by
          apply List.filter_eq_self.mpr
          intro b hb
          simp only [decide_eq_true_eq]
          intro hbx
          exact hnot (hbx ▸ hb)
        simp [hself]
        intro b hb hbx
        exact hnot (hbx ▸ hb)
      · have ha2 : a ∈ xs := by
          cases List.mem_cons.mp ha with
          | inl h => exact absurd h.symm hx
          | inr h => exact h
        have hlen := ih a (List.nodup_cons.mp hnd).2 ha2
        have hpos : 0 < xs.length := List.length_pos.mpr (List.ne_nil_of_mem ha2)
        simp only [List.filter_cons]
        have : (decide (x ≠ a)) = true := by simp [hx]
        rw [this]
        simp only [if_true, List.length_cons, hlen]
        omega

/-- A successful `mapExcept` preserves the length. -/
theorem mapExcept_ok_length {α β ε : Type} {f : α → Except ε β} :
    ∀ {l : List α} {bs : List β}, mapExcept f l = Except.ok bs →
      bs.length = l.length := by
  intro l
  induction l with
  | nil =>
      intro bs h
      simp only [mapExcept] at h
      cases h
      rfl
  | cons a as ih =>
      intro bs h
      simp only [mapExcept] at h
      cases hfa : f a with
      | error e => rw [hfa] at h; cases h
      | ok b =>
          rw [hfa] at h
          cases hrec : mapExcept f as with
          | error e => rw [hrec] at h; cases h
          | ok bs2 =>
              rw [hrec] at h
              cases h
              simp [ih hrec]

/-- A successful `mapExcept` applies `f` to the i-th input and yields the
i-th output. -/
theorem mapExcept_ok_get {α β ε : Type} {f : α → Except ε β} :
    ∀ {l : List α} {bs : List β}, mapExcept f l = Except.ok bs →
      ∀ (i : Nat) (h1 : i < l.length) (h2 : i < bs.length),
        f (l.get ⟨i, h1⟩) = Except.ok (bs.get ⟨i, h2⟩) := by
  intro l
  induction l with
  | nil => intro bs _ i h1 _; cases h1
  | cons a as ih =>
      intro bs h i h1 h2
      simp only [mapExcept] at h
      cases hfa : f a with
      | error e => rw [hfa] at h; cases h
      | ok b =>
          rw [hfa] at h
          cases hrec : mapExcept f as with
          | error e => rw [hrec] at h; cases h
          | ok bs2 =>
              rw [hrec] at h
              cases h
              cases i with
              | zero => simpa using hfa
              | succ j =>
                  exact ih hrec j (Nat.lt_of_succ_lt_succ h1) (Nat.lt_of_succ_lt_succ h2)

/-- C3: every node bootstrap list excludes its own address; under the
default full-mesh filter it is exactly every other allocated address, of
size N - 1; and the expected connection count paired with each constructed
node is the length of its bootstrap list. -/
theorem topology_full_mesh (addrs : List Multiaddr) (addr : Multiaddr)
    (hnd : addrs.Nodup) (ha : addr ∈ addrs) :
    addr ∉ nodeBootstraps id addrs addr ∧
    (∀ b, b ∈ nodeBootstraps id addrs addr ↔ (b ∈ addrs ∧ b ≠ addr)) ∧
    (nodeBootstraps id addrs addr).length = addrs.length - 1 ∧
    (∀ (cn : List Multiaddr → Multiaddr → Except String CreatedNodeParts)
        (B : List Multiaddr → List Multiaddr) (addrs2 : List Multiaddr)
        (nodes : List (CreatedNodeParts × Nat)),
        mapExcept (buildNode cn B addrs2) addrs2 = Except.ok nodes →
        ∀ (i : Nat) (h1 : i < addrs2.length) (h2 : i < nodes.length),
          (nodes.get ⟨i, h2⟩).2 =
            (nodeBootstraps B addrs2 (addrs2.get ⟨i, h1⟩)).length) := by
  have hmem : ∀ b, b ∈ nodeBootstraps id addrs addr ↔ (b ∈ addrs ∧ b ≠ addr) := by
    intro b
    simp [nodeBootstraps]
  refine ⟨?_, hmem, ?_, ?_⟩
  · intro hcontra
    exact ((hmem addr).mp hcontra).2 rfl
  · exact filter_ne_length addrs addr hnd ha
  · intro cn B addrs2 nodes hmap i h1 h2
    have hf := mapExcept_ok_get hmap i h1 h2
    unfold buildNode at hf
    cases hcn : cn (nodeBootstraps B addrs2 (addrs2.get ⟨i, h1⟩)) (addrs2.get ⟨i, h1⟩) with
    | error e => rw [hcn] at hf; cases hf
    | ok p =>
        rw [hcn] at hf
        simp only [Except.map] at hf
        injection hf with hp
        rw [← hp]

/-- C3 witness: with two distinct memory addresses, the first node bootstrap
list has size 1 and excludes its own address. -/
theorem topology_full_mesh_witness :
    (nodeBootstraps id addrsW [Protocol.memory 0]).length = addrsW.length - 1 ∧
    [Protocol.memory 0] ∉ nodeBootstraps id addrsW [Protocol.memory 0] := by
  have h := topology_full_mesh addrsW [Protocol.memory 0] (by decide) (by decide)
  exact ⟨h.2.2.1, h.1⟩

/-- Working-directory resolution touches no field other than `tmp_dir`. -/
theorem resolveTmpDir_fields (env : SwarmEnv) (c : SwarmConfig) :
    (resolveTmpDir env c).keypair = c.keypair ∧
    (resolveTmpDir env c).bootstraps = c.bootstraps ∧
    (resolveTmpDir env c).listen_on = c.listen_on ∧
    (resolveTmpDir env c).trust = c.trust ∧
    (resolveTmpDir env c).transport = c.transport ∧
    (resolveTmpDir env c).pool_size = c.pool_size ∧
    (resolveTmpDir env c).builtins_dir = c.builtins_dir := by
  unfold resolveTmpDir
  split <;> simp

/-- The certificates actually handed to the trust collaborator form a prefix
of the configured list. -/
theorem replayCerts_trace_fst (add : TrustGraph → Cert → Nat → Except String TrustGraph)
    (t : Nat) :
    ∀ (certs : List Cert) (g : TrustGraph),
      (replayCerts add g certs t).2.map Prod.fst =
        certs.take (replayCerts add g certs t).2.length := by
  intro certs
  induction certs with
  | nil => intro g; rfl
  | cons c cs ih =>
      intro g
      unfold replayCerts
      cases hadd : add g c t with
      | error e => simp
      | ok g2 => simp [ih g2]

/-- Every trust-collaborator call uses the configured reference time. -/
theorem replayCerts_trace_snd (add : TrustGraph → Cert → Nat → Except String TrustGraph)
    (t : Nat) :
    ∀ (certs : List Cert) (g : TrustGraph) (p : Cert × Nat),
      p ∈ (replayCerts add g certs t).2 → p.2 = t := by
  intro certs
  induction certs with
  | nil => intro g p hp; cases hp
  | cons c cs ih =>
      intro g p hp
      unfold replayCerts at hp
      cases hadd : add g c t with
      | error e =>
          rw [hadd] at hp
          simp at hp
          rw [hp]
      | ok g2 =>
          rw [hadd] at hp
          simp at hp
          cases hp with
          | inl h => rw [h]
          | inr h => exact ih g2 p h

/-- A successful replay ingested every configured certificate, in order. -/
theorem replayCerts_ok_trace (add : TrustGraph → Cert → Nat → Except String TrustGraph)
    (t : Nat) :
    ∀ (certs : List Cert) (g g2 : TrustGraph),
      (replayCerts add g certs t).1 = Except.ok g2 →
      (replayCerts add g certs t).2.map Prod.fst = certs := by
  intro certs
  induction certs with
  | nil => intro g g2 _; rfl
  | cons c cs ih =>
      intro g g2 h
      unfold replayCerts at h ⊢
      cases hadd : add g c t with
      | error e => rw [hadd] at h; cases h
      | ok g3 =>
          rw [hadd] at h
          simp at h ⊢
          exact ih g3 g2 h

/-- C4: configured certificates are replayed against the trust graph in list
order with the configured reference time (a successful construction replayed
all of them, each exactly once); any ingestion failure aborts the node
construction with that error, and any node-construction failure aborts the
whole make_swarms_with call, producing no swarm handles. -/
theorem trust_replay_abort :
    (∀ (add : TrustGraph → Cert → Nat → Except String TrustGraph)
        (g : TrustGraph) (certs : List Cert) (t : Nat),
        (replayCerts add g certs t).2.map Prod.fst =
          certs.take (replayCerts add g certs t).2.length ∧
        (∀ p ∈ (replayCerts add g certs t).2, p.2 = t) ∧
        (∀ g2, (replayCerts add g certs t).1 = Except.ok g2 →
          (replayCerts add g certs t).2.map Prod.fst = certs)) ∧
    (∀ (env : SwarmEnv) (config : SwarmConfig) (t : Trust),
        config.trust = some t →
        (create_swarm_with_runtime env config).2 =
          (replayCerts env.addCert (initialTrustGraph (some t))
            t.certificates t.cur_time).2) ∧
    (∀ (env : SwarmEnv) (config : SwarmConfig) (t : Trust) (e : String),
        config.trust = some t →
        (replayCerts env.addCert (initialTrustGraph (some t))
          t.certificates t.cur_time).1 = Except.error e →
        (create_swarm_with_runtime env config).1 = Except.error e) ∧
    (∀ (env : SwarmEnv) (n : Nat)
        (cn : List Multiaddr → Multiaddr → Except String CreatedNodeParts)
        (mk : Nat → Multiaddr) (B : List Multiaddr → List Multiaddr)
        (w : Bool) (e : String),
        mapExcept (buildNode cn B ((List.range n).map mk)) ((List.range n).map mk) =
          Except.error e →
        (make_swarms_with env n cn mk B w).result = Except.error e) := by
  refine ⟨?_, ?_, ?_, ?_⟩
  · intro add g certs t
    exact ⟨replayCerts_trace_fst add t certs g,
      fun p hp => replayCerts_trace_snd add t certs g p hp,
      fun g2 h => replayCerts_ok_trace add t certs g g2 h⟩
  · intro env config t ht
    have ht2 : (resolveTmpDir env config).trust = some t := by
      rw [(resolveTmpDir_fields env config).2.2.2.1, ht]
    simp only [create_swarm_with_runtime, trustReplay]
    rw [ht2]
    cases hres : (replayCerts env.addCert (initialTrustGraph (some t))
        t.certificates t.cur_time).1 <;> simp [hres]
  · intro env config t e ht hfail
    have ht2 : (resolveTmpDir env config).trust = some t := by
      rw [(resolveTmpDir_fields env config).2.2.2.1, ht]
    simp only [create_swarm_with_runtime, trustReplay]
    rw [ht2, hfail]
  · intro env n cn mk B w e hmap
    simp only [make_swarms_with]
    rw [hmap]

/-- C4 witness: with a trust collaborator rejecting certificate 2 of the
configured list [1, 2, 3], node construction aborts with that error and a
one-node swarm creation returns no handles. -/
theorem trust_replay_abort_witness :
    (create_swarm_with_runtime envFail cfgTrustW).1 = Except.error "bad cert" ∧
    (make_swarms_with envFail 1
        (fun bs maddr => (create_swarm envFail (SwarmConfig.with_trust 4 bs maddr trustW)).1)
        (fun _ => [Protocol.memory 0]) id true).result = Except.error "bad cert" := by
  refine ⟨trust_replay_abort.2.2.1 envFail cfgTrustW trustW "bad cert" rfl (by rfl),
    trust_replay_abort.2.2.2 envFail 1
      (fun bs maddr => (create_swarm envFail (SwarmConfig.with_trust 4 bs maddr trustW)).1)
      (fun _ => [Protocol.memory 0]) id true "bad cert" (by rfl)⟩

/-- A start-and-deploy failure at any position, after successful earlier
nodes, aborts the whole traversal with that error. -/
theorem runNodes_prefix_error (env : SwarmEnv) :
    ∀ (pre : List (CreatedNodeParts × Nat)) (p : CreatedNodeParts × Nat)
      (rest : List (CreatedNodeParts × Nat)) (e : String),
      (∀ q ∈ pre, ∃ cs, (startAndDeploy env q.1).1 = Except.ok cs) →
      (startAndDeploy env p.1).1 = Except.error e →
      (runNodes env (pre ++ p :: rest)).1 = Except.error e := by
  intro pre
  induction pre with
  | nil =>
      intro p rest e _ hp
      simp only [List.nil_append, runNodes]
      rw [hp]
  | cons q pre ih =>
      intro p rest e hpre hp
      obtain ⟨cs, hcs⟩ := hpre q (List.mem_cons_self q pre)
      have hrec := ih p rest e (fun r hr => hpre r (List.mem_cons_of_mem q hr)) hp
      simp [runNodes, hcs, hrec]

/-- C5: when a builtins directory is configured, builtin services are
deployed right after the node is started (start event, then deploy event);
a deployment failure makes that node start-and-deploy step fail with the
deployment error, which propagates past any earlier successfully started
nodes, and the result of make_swarms_with is exactly the start-and-deploy
outcome, so the whole call aborts with that error and returns no handles. -/
theorem builtins_deploy_fatal :
    (∀ (env : SwarmEnv) (parts : CreatedNodeParts) (dir : String),
        parts.config.builtins_dir = some dir →
        (startAndDeploy env parts).2 =
          [SwarmEvent.startNode parts.local_peer_id,
           SwarmEvent.deployCall parts.local_peer_id]) ∧
    (∀ (env : SwarmEnv) (parts : CreatedNodeParts) (dir : String) (e : String),
        parts.config.builtins_dir = some dir →
        env.deployBuiltins parts.startup_management_peer_id parts.local_peer_id
          dir env.particle_ttl false = Except.error e →
        (startAndDeploy env parts).1 = Except.error e) ∧
    (∀ (env : SwarmEnv) (pre : List (CreatedNodeParts × Nat))
        (p : CreatedNodeParts × Nat) (rest : List (CreatedNodeParts × Nat)) (e : String),
        (∀ q ∈ pre, ∃ cs, (startAndDeploy env q.1).1 = Except.ok cs) →
        (startAndDeploy env p.1).1 = Except.error e →
        (runNodes env (pre ++ p :: rest)).1 = Except.error e) ∧
    (∀ (env : SwarmEnv) (n : Nat)
        (cn : List Multiaddr → Multiaddr → Except String CreatedNodeParts)
        (mk : Nat → Multiaddr) (B : List Multiaddr → List Multiaddr)
        (w : Bool) (nodes : List (CreatedNodeParts × Nat)),
        mapExcept (buildNode cn B ((List.range n).map mk)) ((List.range n).map mk) =
          Except.ok nodes →
        (make_swarms_with env n cn mk B w).result = (runNodes env nodes).1) := by
  refine ⟨?_, ?_, ?_, ?_⟩
  · intro env parts dir h
    simp only [startAndDeploy, h]
    split <;> rfl
  · intro env parts dir e h hd
    simp [startAndDeploy, h, hd]
  · intro env pre p rest e hpre hp
    exact runNodes_prefix_error env pre p rest e hpre hp
  · intro env n cn mk B w nodes hmap
    simp only [make_swarms_with]
    rw [hmap]

/-- C5 witness: with a deploy collaborator that fails, a node configured
with a builtins directory is started, deployment is invoked, and a one-node
make_swarms_with call aborts with the deployment error. -/
theorem builtins_deploy_fatal_witness :
    (startAndDeploy envDeployFail partsB).2 =
      [SwarmEvent.startNode 4, SwarmEvent.deployCall 4] ∧
    (startAndDeploy envDeployFail partsB).1 = Except.error "deploy failed" ∧
    (runNodes envDeployFail [(partsB, 0)]).1 = Except.error "deploy failed" ∧
    (make_swarms_with envDeployFail 1 (fun _ _ => Except.ok partsB)
        (fun _ => [Protocol.memory 0]) id false).result = Except.error "deploy failed" := by
  have h2 : (startAndDeploy envDeployFail partsB).1 = Except.error "deploy failed" :=
    builtins_deploy_fatal.2.1 envDeployFail partsB "bdir" "deploy failed" rfl rfl
  have h3 : (runNodes envDeployFail [(partsB, 0)]).1 = Except.error "deploy failed" :=
    builtins_deploy_fatal.2.2.1 envDeployFail [] (partsB, 0) [] "deploy failed"
      (fun q hq => absurd hq (List.not_mem_nil q)) h2
  refine ⟨builtins_deploy_fatal.1 envDeployFail partsB "bdir" rfl, h2, h3, ?_⟩
  have h4 := builtins_deploy_fatal.2.2.2 envDeployFail 1 (fun _ _ => Except.ok partsB)
    (fun _ => [Protocol.memory 0]) id false [(partsB, 0)] (by rfl)
  rw [h4, h3]

/-- C6: SwarmConfig.new selects the in-memory transport exactly when the
first segment of the listen address is the in-process (memory) marker, and
the network transport otherwise. -/
theorem transport_from_listen_addr (kp : Keypair) (bs : List Multiaddr) (l : Multiaddr) :
    ((SwarmConfig.new kp bs l).transport = Transport.memory ↔
      ∃ x, l.head? = some (Protocol.memory x)) ∧
    ((SwarmConfig.new kp bs l).transport = Transport.network ↔
      ¬ ∃ x, l.head? = some (Protocol.memory x)) := by
  cases l with
  | nil => simp [SwarmConfig.new]
  | cons hd tl => cases hd <;> simp [SwarmConfig.new]

/-- On success, the returned config is exactly the working-directory-resolved
input config, and the VM-pool configuration is sized from its pool_size
field with the external execution timeout. -/
theorem create_ok_parts (env : SwarmEnv) (config : SwarmConfig)
    (parts : CreatedNodeParts) (tr : List (Cert × Nat))
    (h : create_swarm_with_runtime env config = (Except.ok parts, tr)) :
    parts.config = resolveTmpDir env config ∧
    parts.pool_config =
      VmPoolConfig.new ((resolveTmpDir env config).pool_size.getD 1)
        env.execution_timeout := by
  simp only [create_swarm_with_runtime] at h
  cases htr : (trustReplay env (resolveTmpDir env config).trust).1 with
  | error e => rw [htr] at h; cases h
  | ok g =>
      rw [htr] at h
      simp only [Prod.mk.injEq] at h
      obtain ⟨h1, _⟩ := h
      injection h1 with h1
      rw [← h1]
      exact ⟨rfl, rfl⟩

/-- C7: create_swarm_with_runtime assigns a working directory derived from
the peer identity only when none was supplied, leaves a supplied working
directory unchanged, and returns every other configuration field unchanged
alongside the node. -/
theorem config_frozen_except_tmp_dir (env : SwarmEnv) (config : SwarmConfig)
    (parts : CreatedNodeParts) (tr : List (Cert × Nat))
    (h : create_swarm_with_runtime env config = (Except.ok parts, tr)) :
    (config.tmp_dir = none →
      parts.config.tmp_dir =
        some (env.makeTmpDir (toString (env.toPeerId config.keypair)))) ∧
    (∀ d, config.tmp_dir = some d → parts.config.tmp_dir = some d) ∧
    parts.config.keypair = config.keypair ∧
    parts.config.bootstraps = config.bootstraps ∧
    parts.config.listen_on = config.listen_on ∧
    parts.config.trust = config.trust ∧
    parts.config.transport = config.transport ∧
    parts.config.pool_size = config.pool_size ∧
    parts.config.builtins_dir = config.builtins_dir := by
  obtain ⟨hc, -⟩ := create_ok_parts env config parts tr h
  have hf := resolveTmpDir_fields env config
  rw [hc]
  refine ⟨?_, ?_, hf.1, hf.2.1, hf.2.2.1, hf.2.2.2.1, hf.2.2.2.2.1,
    hf.2.2.2.2.2.1, hf.2.2.2.2.2.2⟩
  · intro hd
    simp [resolveTmpDir, hd]
  · intro d hd
    simp [resolveTmpDir, hd]

/-- C7 witness: on a concrete config with no working directory, the returned
config carries the derived directory and the untouched keypair. -/
theorem config_frozen_except_tmp_dir_witness :
    partsW.config.tmp_dir =
      some (envW.makeTmpDir (toString (envW.toPeerId cfgW.keypair))) ∧
    partsW.config.keypair = cfgW.keypair ∧
    partsW.config.bootstraps = cfgW.bootstraps := by
  have h := config_frozen_except_tmp_dir envW cfgW partsW [] (by rfl)
  exact ⟨h.1 rfl, h.2.2.1, h.2.2.2.1⟩

/-- C8: the VM-pool configuration is sized from the config pool_size field,
defaulting to 1 when it is not set. -/
theorem pool_size_default (env : SwarmEnv) (config : SwarmConfig)
    (parts : CreatedNodeParts) (tr : List (Cert × Nat))
    (h : create_swarm_with_runtime env config = (Except.ok parts, tr)) :
    parts.pool_config = VmPoolConfig.new (config.pool_size.getD 1) env.execution_timeout ∧
    (config.pool_size = none → parts.pool_config.pool_size = 1) := by
  obtain ⟨-, hp⟩ := create_ok_parts env config parts tr h
  rw [hp, (resolveTmpDir_fields env config).2.2.2.2.2.1]
  exact ⟨rfl, fun hn => by simp [VmPoolConfig.new, hn]⟩

/-- C8 witness: a concrete config with pool_size unset yields a pool of
size 1. -/
theorem pool_size_default_witness :
    partsW.pool_config = VmPoolConfig.new (cfgW.pool_size.getD 1) envW.execution_timeout ∧
    partsW.pool_config.pool_size = 1 := by
  have h := pool_size_default envW cfgW partsW [] (by rfl)
  exact ⟨h.1, h.2 rfl⟩

/-- C9: make_swarms applies no configuration transform: it is exactly
make_swarms_with_cfg with the identity transform. -/
theorem make_swarms_default_transform (env : SwarmEnv) (n : Nat) :
    make_swarms env n = make_swarms_with_cfg env n id := rfl

/-- C10: DifficultyFunction.function is named "difficulty" with empty inputs
and outputs, no constant flag, and View state mutability, while
DifficultyFunction.signature is exactly [FixedBytes 32]; in particular the
32-byte return type reported by the signature is absent from the declared
outputs. -/
theorem difficulty_function_shape :
    DifficultyFunction.function.name = "difficulty" ∧
    DifficultyFunction.function.inputs = [] ∧
    DifficultyFunction.function.outputs = [] ∧
    DifficultyFunction.function.constant = none ∧
    DifficultyFunction.function.state_mutability = ethabi.StateMutability.view ∧
    DifficultyFunction.signature = [ethabi.ParamType.fixedBytes 32] ∧
    (∀ p ∈ DifficultyFunction.signature, p ∉ DifficultyFunction.function.outputs) := by
  refine ⟨rfl, rfl, rfl, rfl, rfl, rfl, ?_⟩
  intro p _
  simp [DifficultyFunction.function]
